import Mathlib

/-
Verification development for the LinkedIn-feed HTML parsing pipeline
(repository: FreelancerLinkedInParser, single source file main.py).

The Python source is shallowly embedded as follows:
* an lxml element becomes `Elem` (its `.text`, ordered children, `.tail`);
* the XPath engine is an external capability (out of scope per the design
  document); a post fragment is therefore modelled as `Post`, the tuple of
  the six fixed XPath query results that `parse_html_soup` performs on it;
* Python exceptions become `Except PyErr`; an uncaught exception in a
  function is an `Except.error` result;
* the compiled email regular expression is external configuration (read
  from `email_regex.txt` at startup); its `re.search` action is modelled as
  an abstract parameter `es : String → Option String` (first match or none);
* the async queue/generator machinery of `parse_folder` is modelled by
  explicit message lists: the channel contents, the sends of the consumer into
  the CSV generator, and the rows written by the generator.
Character classes of the Python `re` module (`\d`, `\w`) are modelled over ASCII.
-/

/-- Kinds of Python exceptions the embedded code can raise. -/
inductive PyErr where
  | valueError
  | indexError
  | attributeError
  | typeError
  | parseError
  deriving DecidableEq

/-- The `DataRow` NamedTuple of main.py (line 9): all eight fields optional. -/
structure DataRow where
  full_name : Option String
  job_title : Option String
  company : Option String
  email : Option String
  description : Option String
  date : Option String
  number_of_comments : Option Nat
  url : Option String
  deriving DecidableEq

/-- An lxml element: direct text, ordered child elements, trailing tail text.
Tag and attribute data are irrelevant once the XPath queries are factored
out, so they are omitted. -/
inductive Elem where
  | mk (text : Option String) (children : List Elem) (tail : Option String)

/-- The `.text` accessor of an lxml element (None when the element has no
direct text). -/
def textOf : Elem → Option String
  | .mk t _ _ => t

/-- The `.tail` accessor of an lxml element. -/
def tailOf : Elem → Option String
  | .mk _ _ tl => tl

/-- The ordered child elements of an lxml element. -/
def childrenOf : Elem → List Elem
  | .mk _ cs _ => cs

/-- Python `str.strip()`: remove leading and trailing whitespace. -/
def py_strip (s : String) : String :=
  String.mk (((s.toList.dropWhile Char.isWhitespace).reverse.dropWhile Char.isWhitespace).reverse)

/-- Contribution of the `.tail` of a child in `get_inner_text` (main.py lines
51-52): `if child.tail: text += " " + child.tail` — skipped when the tail
is None or the empty string (Python truthiness). -/
def tail_part : Option String → String
  | some s => if s = "" then "" else " " ++ s
  | none => ""

mutual

/-- `get_inner_text` of main.py (lines 47-53): start from `element.text or ''`,
then for each child append a space, the recursively flattened text of the child,
and (when truthy) a space and the tail of the child; finally `.strip()`. -/
def get_inner_text : Elem → String
  | .mk t cs _ => py_strip (inner_go (t.getD "") cs)

/-- The `for child in element` accumulation loop inside `get_inner_text`. -/
def inner_go : String → List Elem → String
  | acc, [] => acc
  | acc, c :: rest => inner_go (acc ++ " " ++ get_inner_text c ++ tail_part (tailOf c)) rest

end

mutual

/-- Flattening as the words of the specification describe it for claim C5: the
plain concatenation of all text and tail segments of the subtree in
document order (the direct text of each node, then each child in order followed
by the tail of that child), with only the final result trimmed. -/
def spec_segments : Elem → List String
  | .mk t cs _ => t.toList ++ spec_segments_children cs

/-- Segments contributed by a list of children, in document order. -/
def spec_segments_children : List Elem → List String
  | [] => []
  | c :: rest => spec_segments c ++ (tailOf c).toList ++ spec_segments_children rest

end

/-- The description yielded by the concatenation-only wording of the specification. -/
def spec_flatten (e : Elem) : String :=
  py_strip (String.join (spec_segments e))

mutual

/-- Declarative restatement of `get_inner_text` (used for the amended claim
C5): the text of the node followed by, for each child in order, a space, the
recursively trimmed flattened text of the child, and a space plus the tail when
the tail is non-empty; the whole is trimmed. -/
def amended_flatten : Elem → String
  | .mk t cs _ => py_strip ((t.getD "") ++ amended_children cs)

/-- Concatenated contribution of a list of children in `amended_flatten`. -/
def amended_children : List Elem → String
  | [] => ""
  | c :: rest => " " ++ amended_flatten c ++ tail_part (tailOf c) ++ amended_children rest

end

/-- Python regex class `\d` (restricted to ASCII): a decimal digit. -/
def is_ascii_digit (c : Char) : Bool := c.isDigit

/-- Python regex class `[1-9]`: a non-zero decimal digit. -/
def is_nonzero_digit (c : Char) : Bool := c.isDigit && !(c == '0')

/-- Python regex class `\w` (restricted to ASCII): letter, digit or
underscore. -/
def is_word_char (c : Char) : Bool := c.isAlphanum || c == '_'

/-- Attempt of the pattern `[1-9]\d?\w\w?` at one fixed position (main.py
line 101), following the greedy backtracking order of the regex engine: first
try to consume an optional second digit, then one word character, then an
optional second word character. -/
def date_token_at (l : List Char) : Option String :=
  match l with
  | [] => none
  | c1 :: rest =>
    if is_nonzero_digit c1 then
      match rest with
      | [] => none
      | c2 :: rest2 =>
        if is_ascii_digit c2 then
          match rest2 with
          | [] => some (String.mk [c1, c2])
          | c3 :: rest3 =>
            if is_word_char c3 then
              match rest3 with
              | c4 :: _ =>
                if is_word_char c4 then some (String.mk [c1, c2, c3, c4])
                else some (String.mk [c1, c2, c3])
              | [] => some (String.mk [c1, c2, c3])
            else some (String.mk [c1, c2])
        else
          if is_word_char c2 then
            match rest2 with
            | c3 :: _ =>
              if is_word_char c3 then some (String.mk [c1, c2, c3])
              else some (String.mk [c1, c2])
            | [] => some (String.mk [c1, c2])
          else none
    else none

/-- Scan for the leftmost position where `date_token_at` succeeds. -/
def date_search_aux : List Char → Option String
  | [] => none
  | c :: rest =>
    match date_token_at (c :: rest) with
    | some tok => some tok
    | none => date_search_aux rest

/-- Python `re.search(r"[1-9]\d?\w\w?", s)` of main.py line 101: leftmost
match, or None. -/
def date_search (s : String) : Option String :=
  date_search_aux s.toList

/-- Shape of any token the date pattern `[1-9]\d?\w\w?` can produce: a
non-zero digit, an optional digit, then one or two word characters (with
the middle alternative arising from either branch of the optional digit). -/
def is_date_token (s : String) : Bool :=
  match s.toList with
  | [c1, c2] => is_nonzero_digit c1 && is_word_char c2
  | [c1, c2, c3] =>
      is_nonzero_digit c1 &&
        ((is_ascii_digit c2 && is_word_char c3) || (is_word_char c2 && is_word_char c3))
  | [c1, c2, c3, c4] =>
      is_nonzero_digit c1 && is_ascii_digit c2 && is_word_char c3 && is_word_char c4
  | _ => false

/-- The date field extraction of main.py lines 96-101: absent element gives
None; an element whose `.text` is None makes `re.search` raise TypeError;
text with no pattern match makes `.group()` on None raise AttributeError;
otherwise the first match is the date. -/
def extract_date_field (ms : List Elem) : Except PyErr (Option String) :=
  match ms.head? with
  | none => .ok none
  | some el =>
    match textOf el with
    | none => .error .typeError
    | some raw =>
      match date_search raw with
      | none => .error .attributeError
      | some tok => .ok (some tok)

/-- Python regex class `[\d,]`: a digit or a comma. -/
def is_digit_comma (c : Char) : Bool := c.isDigit || c == ','

/-- Python `re.search(r"[\d,]+", s)` of main.py line 121: the leftmost
maximal run of digits and commas, or None. -/
def first_digit_comma_run : List Char → Option (List Char)
  | [] => none
  | c :: rest =>
    if is_digit_comma c then some (c :: rest.takeWhile is_digit_comma)
    else first_digit_comma_run rest

/-- Python `s.replace(',', '')` on a character list. -/
def strip_commas (l : List Char) : List Char := l.filter (fun c => !(c == ','))

/-- Decimal value of a digit list (what Python `int` computes on it). -/
def digits_value (l : List Char) : Nat :=
  l.foldl (fun a c => 10 * a + (c.toNat - 48)) 0

/-- Python `int(s)` on the comma-stripped run: succeeds exactly on a
non-empty all-digit string, else raises ValueError. -/
def py_int (l : List Char) : Option Nat :=
  if l ≠ [] ∧ l.all is_ascii_digit then some (digits_value l) else none

/-- The comment-count extraction of main.py lines 116-121: absent element
gives None; otherwise take the first digit-and-comma run of the text (a
failed search makes `.group()` raise AttributeError), strip commas and
parse with `int` (ValueError when nothing parsable remains). -/
def extract_comment_count (ms : List String) : Except PyErr (Option Nat) :=
  match ms.head? with
  | none => .ok none
  | some s =>
    match first_digit_comma_run s.toList with
    | none => .error .attributeError
    | some run =>
      match py_int (strip_commas run) with
      | none => .error .valueError
      | some n => .ok (some n)

/-- `extract_email` of main.py lines 64-70: run the configured email
pattern against the text and return the first match or None. The pattern
is external configuration (read from `email_regex.txt`), so its `re.search`
action is the abstract parameter `es`. -/
def extract_email (es : String → Option String) (text : String) : Option String :=
  es text

/-- One post fragment, modelled as the results of the six fixed XPath
queries `parse_html_soup` performs on it (main.py lines 73-80): element
lists for the FULL_NAME, JOB_TITLE, DATE and DESCRIPTION patterns, and
string lists for the URL (`/@href`) and COMMENTS_NUMBER (`/text()`)
patterns. -/
structure Post where
  full_name_matches : List Elem
  job_title_matches : List Elem
  date_matches : List Elem
  description_matches : List Elem
  url_matches : List String
  comments_matches : List String

/-- The body of the `for post in get_posts_trees(tree)` loop of
`parse_html_soup` (main.py lines 85-134) for one post: `.ok none` models the
`continue` taken when the full-name query has no match (only IndexError is
caught there); `.error` models an exception escaping the loop body — the
unguarded url lookup at line 114 raises IndexError when its query is empty,
and the date and comment-count post-processing can raise as modelled above.
Evaluation order follows the source: name, job title, date, description,
email, url, comment count. -/
def extract_record (es : String → Option String) (post : Post) :
    Except PyErr (Option DataRow) :=
  match post.full_name_matches.head? with
  | none => .ok none
  | some nameEl =>
    let full_name := textOf nameEl
    let job_title := post.job_title_matches.head?.bind textOf
    match extract_date_field post.date_matches with
    | .error e => .error e
    | .ok date =>
      let description := post.description_matches.head?.map get_inner_text
      let email :=
        match description with
        | some d => extract_email es d
        | none => none
      match post.url_matches.head? with
      | none => .error .indexError
      | some url =>
        match extract_comment_count post.comments_matches with
        | .error e => .error e
        | .ok number_of_comments =>
          .ok (some
            { full_name := full_name
              job_title := job_title
              company := none
              email := email
              description := description
              date := date
              number_of_comments := number_of_comments
              url := some url })

/-- `parse_html_soup` of main.py (lines 83-136) over the post fragments of
one document: accumulate the records in document order; an exception in any
post aborts the whole call (discarding the accumulated records). -/
def parse_html_soup (es : String → Option String) :
    List Post → Except PyErr (List DataRow)
  | [] => .ok []
  | p :: rest =>
    match extract_record es p with
    | .error e => .error e
    | .ok none => parse_html_soup es rest
    | .ok (some r) =>
      match parse_html_soup es rest with
      | .error e => .error e
      | .ok rs => .ok (r :: rs)

/-- One directory entry as `parse_html_file` (main.py lines 147-155) sees
it: whether the path is a regular file, its extension, and — when the bytes
are parsable — the post fragments `get_posts_trees` finds in the parsed
tree (`none` models `lxml.etree.fromstring` raising on unparsable bytes). -/
structure FileModel where
  is_file : Bool
  suffix : String
  parsed : Option (List Post)

/-- `parse_html_file` of main.py (lines 147-155): reject non-files and
non-`.html` extensions with ValueError, fail on unparsable bytes, else run
`parse_html_soup` on the post fragments of the document. -/
def parse_html_file (es : String → Option String) (f : FileModel) :
    Except PyErr (List DataRow) :=
  if f.is_file = false then .error .valueError
  else if f.suffix ≠ ".html" then .error .valueError
  else
    match f.parsed with
    | none => .error .parseError
    | some posts => parse_html_soup es posts

/-- `await asyncio.gather(*parse_file_tasks)` of main.py line 209 with the
default `return_exceptions=False`: the per-file batches when every parse
task succeeds, otherwise the exception of a failing task propagates to
`parse_folder`. -/
def gather_results (es : String → Option String) :
    List FileModel → Except PyErr (List (List DataRow))
  | [] => .ok []
  | f :: rest =>
    match parse_html_file es f with
    | .error e => .error e
    | .ok b =>
      match gather_results es rest with
      | .error e => .error e
      | .ok bs => .ok (b :: bs)

/-- An item on the `data_write_queue`: a batch of rows from one producer
task, or the module-level SENTINEL object of main.py line 158. -/
inductive QItem where
  | data (rows : List DataRow)
  | sentinel
  deriving DecidableEq

/-- Channel contents of a completed run (main.py lines 200-210): every
producer task puts its batch, and after `asyncio.gather` returns the
orchestrator puts the sentinel; `arrival` is the batches in task-completion
order. -/
def channel_items (arrival : List (List DataRow)) : List QItem :=
  arrival.map QItem.data ++ [QItem.sentinel]

/-- `send_data_to_csv_consumer` of main.py (lines 161-173), modelled by the
sequence of values it sends into the CSV generator: each data batch is
forwarded with `asend(data)`, and on taking the sentinel it sends
`asend(None)` (finalizing the generator) and returns, reading nothing
further from the queue. -/
def send_data_to_csv_consumer : List QItem → List (Option (List DataRow))
  | [] => []
  | QItem.sentinel :: _ => [none]
  | QItem.data rows :: rest => some rows :: send_data_to_csv_consumer rest

/-- The fixed header row written by `save_data_rows_to_csv`
(main.py lines 24-26). -/
def header_row : List String :=
  ["FullName", "Job Title", "Company", "Email", "Description", "Date", "No. Comments", "Url"]

/-- How `csv.writer.writerow` serializes one optional text field: None
becomes the empty cell. -/
def serialize_cell : Option String → String
  | some s => s
  | none => ""

/-- One CSV data row for a `DataRow` (main.py lines 36-37): eight cells in
field order; the integer field is printed in decimal, None cells are empty. -/
def serialize_row (r : DataRow) : List String :=
  [serialize_cell r.full_name, serialize_cell r.job_title, serialize_cell r.company,
    serialize_cell r.email, serialize_cell r.description, serialize_cell r.date,
    (match r.number_of_comments with | some n => toString n | none => ""),
    serialize_cell r.url]

/-- The receive loop of `save_data_rows_to_csv` (main.py lines 28-37): each
received batch is written row by row; receiving None breaks the loop and
nothing further is written. -/
def write_loop : List (Option (List DataRow)) → List (List String)
  | [] => []
  | none :: _ => []
  | some rows :: rest => rows.map serialize_row ++ write_loop rest

/-- All rows `save_data_rows_to_csv` (main.py lines 20-38) writes for a
sequence of sent values: the header first (written once when the generator
is primed at main.py line 198, before any producer runs), then the data
rows. -/
def sink_output (sends : List (Option (List DataRow))) : List (List String) :=
  header_row :: write_loop sends

/-- Whether main.py line 210 (`await data_write_queue.put(SENTINEL)`) is
reached: it runs exactly when `asyncio.gather` returned normally, i.e. when
every parse task succeeded. -/
def sentinel_pushed (es : String → Option String) (files : List FileModel) : Bool :=
  (gather_results es files).isOk

/-- `parse_folder` of main.py (lines 191-211), as the rows written to the
output file: if any parse task fails, `asyncio.gather` re-raises that
exception out of `parse_folder` (the sentinel push and the await of the
consumer are never reached); otherwise the consumer drains the channel —
whose data batches arrive in task-completion order `arrival`, a permutation
of the gathered batches — and the generator writes the header and every
delivered row. Directory validation and output-name allocation
(lines 192-194) are modelled separately (`get_output_file`). -/
def parse_folder (es : String → Option String) (files : List FileModel)
    (arrival : List (List DataRow)) : Except PyErr (List (List String)) :=
  match gather_results es files with
  | .error e => .error e
  | .ok _ => .ok (sink_output (send_data_to_csv_consumer (channel_items arrival)))

/-- The candidate output name for one index, `f"result_{index}.csv"`
(main.py line 185). -/
def result_name (i : Nat) : String :=
  "result_" ++ toString i ++ ".csv"

/-- Index chosen by the loop of `get_output_file` (main.py lines 182-188):
starting from 0, the first index whose name does not exist in the
filesystem `fs` (`fs name = true` means the path exists). The loop
terminates exactly when some index is free, which the argument `h`
witnesses. -/
def output_file_index (fs : String → Bool) (h : ∃ n, fs (result_name n) = false) : Nat :=
  Nat.find h

/-- `get_output_file` of main.py (lines 182-188): the first unused name of
the sequence `result_0.csv`, `result_1.csv`, ... -/
def get_output_file (fs : String → Bool) (h : ∃ n, fs (result_name n) = false) : String :=
  result_name (output_file_index fs h)

/-- A configured email search that never matches (concrete instance of the
external email pattern, for counterexamples and witnesses). -/
def es_none : String → Option String := fun _ => none

/-- A configured email search that matches the whole text (concrete
instance for witnesses). -/
def es_all : String → Option String := fun s => some s

/-- An element carrying only direct text (e.g. a name span). -/
def name_elem (s : String) : Elem := .mk (some s) [] none

/-- A post fragment whose only structural match is the full-name element:
every other XPath query of `parse_html_soup` comes back empty. -/
def post_only_name : Post :=
  { full_name_matches := [name_elem "John Doe"], job_title_matches := [],
    date_matches := [], description_matches := [], url_matches := [],
    comments_matches := [] }

/-- A post fragment whose full-name element is present but carries no text,
with every other query empty. -/
def post_textless_name : Post :=
  { full_name_matches := [Elem.mk none [] none], job_title_matches := [],
    date_matches := [], description_matches := [], url_matches := [],
    comments_matches := [] }

/-- A well-formed minimal post: a name and an actor link. -/
def post_good : Post :=
  { full_name_matches := [name_elem "G"], job_title_matches := [],
    date_matches := [], description_matches := [], url_matches := ["u"],
    comments_matches := [] }

/-- The record `post_good` extracts to. -/
def row_good : DataRow :=
  { full_name := some "G", job_title := none, company := none, email := none,
    description := none, date := none, number_of_comments := none, url := some "u" }

/-- A post with a name, an actor link and a description block. -/
def post_desc : Post :=
  { full_name_matches := [name_elem "G"], job_title_matches := [],
    date_matches := [], description_matches := [name_elem "hello"],
    url_matches := ["u"], comments_matches := [] }

/-- The record `post_desc` extracts to under `es_all`. -/
def row_desc : DataRow :=
  { full_name := some "G", job_title := none, company := none,
    email := some "hello", description := some "hello", date := none,
    number_of_comments := none, url := some "u" }

/-- A parsable `.html` regular file containing one well-formed post. -/
def file_good : FileModel :=
  { is_file := true, suffix := ".html", parsed := some [post_good] }

/-- A regular `.html` file whose bytes are unparsable. -/
def file_bad : FileModel :=
  { is_file := true, suffix := ".html", parsed := none }

/-- A directory with one valid document and one unparsable document. -/
def files_mixed : List FileModel := [file_good, file_bad]

/-- A description subtree with direct text and one child carrying text:
the input on which the concatenation-only reading of flattening diverges
from the implemented flattening. -/
def elem_c5 : Elem := .mk (some "a") [.mk (some "b") [] none] none

/-- A filesystem in which exactly `result_0.csv` and `result_1.csv` exist. -/
def fs_w : String → Bool := fun s => s == result_name 0 || s == result_name 1

/-- In `fs_w`, the name of index 2 is free. -/
def fs_w_free : ∃ n, fs_w (result_name n) = false := ⟨2, by decide⟩

/-- Helper: the accumulator loop of `get_inner_text` appends the joint
declarative contribution to the accumulator, provided each child already
flattens equally under both definitions. -/
theorem inner_go_eq_amended (cs : List Elem)
    (hIH : ∀ c ∈ cs, get_inner_text c = amended_flatten c) :
    ∀ acc : String, inner_go acc cs = acc ++ amended_children cs := by
  induction cs with
  | nil => intro acc; simp [inner_go, amended_children]
  | cons c rest ih =>
    intro acc
    have hc : get_inner_text c = amended_flatten c := hIH c (by simp)
    have hrest : ∀ x ∈ rest, get_inner_text x = amended_flatten x := by
      intro x hx; exact hIH x (by simp [hx])
    show inner_go (acc ++ " " ++ get_inner_text c ++ tail_part (tailOf c)) rest = _
    rw [ih hrest, hc]
    show _ = acc ++ (" " ++ amended_flatten c ++ tail_part (tailOf c) ++ amended_children rest)
    simp [String.append_assoc]

/-- Helper: `get_inner_text` agrees with its declarative restatement, by
strong induction on the size of the subtree. -/
theorem gi_eq_af : ∀ (n : Nat) (e : Elem), sizeOf e ≤ n →
    get_inner_text e = amended_flatten e := by
  intro n
  induction n with
  | zero =>
    intro e h
    obtain ⟨t, cs, tl⟩ := e
    simp [Elem.mk.sizeOf_spec] at h
  | succ n ih =>
    intro e h
    obtain ⟨t, cs, tl⟩ := e
    have hc : ∀ c ∈ cs, get_inner_text c = amended_flatten c := by
      intro c hcmem
      apply ih
      have h1 : sizeOf c < sizeOf cs := List.sizeOf_lt_of_mem hcmem
      have h2 : sizeOf (Elem.mk t cs tl) = 1 + sizeOf t + sizeOf cs + sizeOf tl := by
        simp [Elem.mk.sizeOf_spec]
      omega
    show py_strip (inner_go (t.getD "") cs) = py_strip ((t.getD "") ++ amended_children cs)
    rw [inner_go_eq_amended cs hc]

/-- C5 counterexample: on a subtree with direct text `"a"` and one child
with text `"b"`, the implemented flattening yields `"a b"` (a space is
inserted before every child contribution), while the claimed plain
concatenation of the text and tail segments yields `"ab"` — the two
disagree. -/
theorem C5_counterexample :
    get_inner_text elem_c5 = "a b" ∧ spec_flatten elem_c5 = "ab" ∧
    get_inner_text elem_c5 ≠ spec_flatten elem_c5 := by
  refine ⟨rfl, rfl, ?_⟩
  decide

/-- C5 (amended): for every description subtree, the extracted description
equals the text and tail segments of the subtree in document order joined
with a single space inserted before the flattened text of each child and before
each non-empty tail, where the flattened contribution of each child is itself
recursively trimmed, and the final result is trimmed. -/
theorem C5_description_flattening (e : Elem) : get_inner_text e = amended_flatten e :=
  gi_eq_af (sizeOf e) e (Nat.le_refl _)

/-- Helper: a digit is a word character. -/
theorem digit_is_word {c : Char} (h : is_ascii_digit c = true) : is_word_char c = true := by
  simp [is_ascii_digit] at h
  simp [is_word_char, Char.isAlphanum, h]

/-- Helper: any token produced by the date pattern attempt at one position
has the shape of a date token. -/
theorem date_token_at_shape (l : List Char) (tok : String)
    (h : date_token_at l = some tok) : is_date_token tok = true := by
  rcases l with _ | ⟨c1, _ | ⟨c2, _ | ⟨c3, _ | ⟨c4, rest⟩⟩⟩⟩
  · simp [date_token_at] at h
  · simp [date_token_at] at h
  · simp only [date_token_at] at h
    split_ifs at h <;> simp only [Option.some.injEq] at h <;> subst h <;>
      simp_all [is_date_token, String.mk, digit_is_word]
  · simp only [date_token_at] at h
    split_ifs at h <;> simp only [Option.some.injEq] at h <;> subst h <;>
      simp_all [is_date_token, String.mk, digit_is_word]
  · simp only [date_token_at] at h
    split_ifs at h <;> simp only [Option.some.injEq] at h <;> subst h <;>
      simp_all [is_date_token, String.mk, digit_is_word]

/-- Helper: any token found by the date search has the date-token shape. -/
theorem date_search_aux_shape (l : List Char) (tok : String)
    (h : date_search_aux l = some tok) : is_date_token tok = true := by
  induction l with
  | nil => simp [date_search_aux] at h
  | cons c rest ih =>
    unfold date_search_aux at h
    split at h
    · cases h
      exact date_token_at_shape _ _ (by assumption)
    · exact ih h

/-- C6 counterexample: on the raw date text `"3 d • Edited"` the pattern
`[1-9]\d?\w\w?` finds no token (the space between the digit and the letter
blocks it), so `.group()` is called on None and the extraction raises
AttributeError instead of yielding `"3d"` as the example in the claim states. -/
theorem C6_counterexample :
    extract_date_field [Elem.mk (some "3 d • Edited") [] none] = .error .attributeError ∧
    extract_date_field [Elem.mk (some "3 d • Edited") [] none] ≠ .ok (some "3d") := by
  refine ⟨rfl, ?_⟩
  intro h
  exact Except.noConfusion h

/-- C6 (amended): when the date element is absent the field is null; when
its raw text contains no token the extraction faults (AttributeError)
rather than silently producing null; when a token is found it is the
leftmost match of `[1-9]\d?\w\w?` — a non-zero digit, an optional second
digit, then one or two word characters, all contiguous — so the spaced text
`"3 d • Edited"` faults while `"3d • Edited"` yields `"3d"`. -/
theorem C6_date_amended :
    extract_date_field [] = .ok none ∧
    (∀ t : String, date_search t = none →
      extract_date_field [Elem.mk (some t) [] none] = .error .attributeError) ∧
    (∀ t tok : String, date_search t = some tok →
      extract_date_field [Elem.mk (some t) [] none] = .ok (some tok) ∧
        is_date_token tok = true) ∧
    extract_date_field [Elem.mk (some "3d • Edited") [] none] = .ok (some "3d") := by
  refine ⟨rfl, ?_, ?_, rfl⟩
  · intro t h
    simp [extract_date_field, textOf, h]
  · intro t tok h
    refine ⟨by simp [extract_date_field, textOf, h], ?_⟩
    exact date_search_aux_shape t.toList tok h

/-- C6 witness: the amended theorem applied to the raw text `"1x"`, whose
leftmost token is `"1x"` itself. -/
theorem C6_witness :
    extract_date_field [Elem.mk (some "1x") [] none] = .ok (some "1x") ∧
    is_date_token "1x" = true :=
  C6_date_amended.2.2.1 "1x" "1x" (by decide)

/-- Helper: `takeWhile` keeps a list all of whose elements satisfy the
predicate. -/
theorem takeWhile_all {p : Char → Bool} :
    ∀ l : List Char, (∀ c ∈ l, p c = true) → l.takeWhile p = l := by
  intro l
  induction l with
  | nil => intro _; rfl
  | cons c rest ih =>
    intro h
    have hc : p c = true := h c (by simp)
    have hrest : rest.takeWhile p = rest := ih (fun x hx => h x (by simp [hx]))
    simp [List.takeWhile, hc, hrest]

/-- Helper: on a list of digits and commas, removing the commas is the same
as keeping the digits. -/
theorem strip_commas_digits :
    ∀ l : List Char, (∀ c ∈ l, is_digit_comma c = true) →
      strip_commas l = l.filter is_ascii_digit := by
  intro l
  induction l with
  | nil => intro _; rfl
  | cons c rest ih =>
    intro h
    have hc : is_digit_comma c = true := h c (by simp)
    have hrest := ih (fun x hx => h x (by simp [hx]))
    by_cases hcomma : c = ','
    · subst hcomma
      show strip_commas rest = List.filter is_ascii_digit rest
      exact hrest
    · have hdigit : is_ascii_digit c = true := by
        have hc2 := hc
        simp [is_digit_comma, beq_iff_eq, hcomma] at hc2
        simp [is_ascii_digit, hc2]
      have hne : (c == ',') = false := beq_eq_false_iff_ne.mpr hcomma
      simp only [strip_commas] at hrest ⊢
      rw [List.filter_cons, List.filter_cons]
      simp [hne, hdigit, hrest]

/-- C7: for a comment-count text consisting entirely of digits and comma
separators (with at least one digit), the extracted count is the decimal
value of its digits with the separators stripped; an absent comment-count
element gives null, not zero. -/
theorem C7_comment_count :
    extract_comment_count [] = .ok none ∧
    ∀ s : String, s.toList ≠ [] →
      (∀ c ∈ s.toList, is_digit_comma c = true) →
      (∃ c ∈ s.toList, is_ascii_digit c = true) →
      extract_comment_count [s] = .ok (some (digits_value (s.toList.filter is_ascii_digit))) := by
  refine ⟨rfl, ?_⟩
  intro s hne hall hdig
  have hrun : first_digit_comma_run s.toList = some s.toList := by
    rcases hl : s.toList with _ | ⟨c, rest⟩
    · exact absurd hl hne
    · have hc : is_digit_comma c = true := by
        apply hall; rw [hl]; simp
      have hrest : rest.takeWhile is_digit_comma = rest := by
        apply takeWhile_all
        intro x hx
        apply hall; rw [hl]; simp [hx]
      simp [first_digit_comma_run, hc, hrest]
  have hstrip : strip_commas s.toList = s.toList.filter is_ascii_digit :=
    strip_commas_digits s.toList hall
  have hfilter_ne : s.toList.filter is_ascii_digit ≠ [] := by
    rcases hdig with ⟨c, hcmem, hcdig⟩
    exact List.ne_nil_of_mem (List.mem_filter.mpr ⟨hcmem, hcdig⟩)
  have hfilter_all : ∀ x ∈ s.toList.filter is_ascii_digit, is_ascii_digit x = true :=
    fun x hx => List.of_mem_filter hx
  have hrun2 : first_digit_comma_run s.data = some s.data := hrun
  have hstrip2 : strip_commas s.data = s.data.filter is_ascii_digit := hstrip
  have hdig2 : ∃ c ∈ s.data, is_ascii_digit c = true := hdig
  simp [extract_comment_count, hrun, hrun2, hstrip, hstrip2, py_int, hfilter_ne,
    hfilter_all, hdig2, String.toList]

/-- C7 witness: the theorem applied to the comment-count text `"1,234"`,
which parses to 1234. -/
theorem C7_witness : extract_comment_count ["1,234"] = .ok (some 1234) := by
  rw [C7_comment_count.2 "1,234" (by decide) (by decide) (by decide)]
  rfl

/-- C2 counterexample: a fragment with a valid identity element and no
other structural element does not yield a Record — the unguarded url
lookup of main.py line 114 raises IndexError and aborts the fragment (and
with it the whole document parse). -/
theorem C2_counterexample :
    extract_record es_none post_only_name = .error .indexError ∧
    (extract_record es_none post_only_name).isOk = false :=
  ⟨rfl, rfl⟩

/-- C2 (amended): every per-field lookup other than the full-name gate and
the url lookup degrades to null when its pattern is absent; the url lookup
is not wrapped, so a fragment without an actor-link match raises IndexError
and aborts the document parse, while a fragment with an identity element
and a url and nothing else yields a Record with full name and url set and
every other field null, raising nothing. -/
theorem C2_field_tolerance (es : String → Option String) (nameEl : Elem) :
    extract_record es
      { full_name_matches := [nameEl], job_title_matches := [], date_matches := [],
        description_matches := [], url_matches := [], comments_matches := [] } =
      .error .indexError ∧
    ∀ u : String,
      extract_record es
        { full_name_matches := [nameEl], job_title_matches := [], date_matches := [],
          description_matches := [], url_matches := [u], comments_matches := [] } =
        .ok (some
          { full_name := textOf nameEl, job_title := none, company := none,
            email := none, description := none, date := none,
            number_of_comments := none, url := some u }) :=
  ⟨rfl, fun _ => rfl⟩

/-- C10 counterexample: for a fragment whose full-name element is present
but textless and whose other queries are all empty, the extractor does not
emit a record — it raises IndexError at the url lookup. -/
theorem C10_counterexample :
    extract_record es_none post_textless_name = .error .indexError ∧
    (extract_record es_none post_textless_name).isOk = false :=
  ⟨rfl, rfl⟩

/-- Helper: the extractor skips a fragment (yields no record and no error)
exactly when the full-name query has no match; the gate never inspects the
text content of the element. -/
theorem extract_record_skip_iff (es : String → Option String) (post : Post) :
    extract_record es post = .ok none ↔ post.full_name_matches = [] := by
  obtain ⟨fn, jt, dm, de, um, cm⟩ := post
  cases fn with
  | nil => simp [extract_record]
  | cons a l =>
    rcases hd : extract_date_field dm with e | d
    · simp [extract_record, hd]
    · rcases hu : um.head? with _ | u
      · simp [extract_record, hd, hu]
      · rcases hc : extract_comment_count cm with e | n
        · simp [extract_record, hd, hu, hc]
        · simp [extract_record, hd, hu, hc]

/-- C10 (amended): the identity gate tests only the presence of the
name-bearing element — a fragment is skipped exactly when the full-name
query is empty, regardless of text — and a fragment whose textless name
element is accompanied by a url (the remaining lookups all succeeding)
yields a Record with full_name null. -/
theorem C10_gate_presence_only (es : String → Option String) (post : Post) :
    (extract_record es post = .ok none ↔ post.full_name_matches = []) ∧
    ∀ u : String,
      extract_record es
        { full_name_matches := [Elem.mk none [] none], job_title_matches := [],
          date_matches := [], description_matches := [], url_matches := [u],
          comments_matches := [] } =
        .ok (some
          { full_name := none, job_title := none, company := none, email := none,
            description := none, date := none, number_of_comments := none,
            url := some u }) :=
  ⟨extract_record_skip_iff es post, fun _ => rfl⟩

/-- C8: the email field of every emitted record is computed from its
description field only — the first match of the configured pattern in the
description when the description is non-null, and null when the
description is null; the pattern is run against no other field. -/
theorem C8_email_from_description_only (es : String → Option String) (post : Post)
    (r : DataRow) (h : extract_record es post = .ok (some r)) :
    r.email = match r.description with
      | some d => extract_email es d
      | none => none := by
  rcases hdesc : post.description_matches.head? with _ | dEl
  all_goals simp only [extract_record, hdesc, Option.map_none, Option.map_some] at h
  all_goals repeat' split at h
  all_goals try simp_all
  all_goals subst h
  all_goals rfl

/-- C8 witness: the theorem applied to a post carrying the description
`"hello"` under a concrete configured pattern. -/
theorem C8_witness :
    row_desc.email = match row_desc.description with
      | some d => extract_email es_all d
      | none => none :=
  C8_email_from_description_only es_all post_desc row_desc rfl

/-- Helper: the consumer forwards exactly the data batches of the channel,
in order, and finalizes once on taking the trailing sentinel. -/
theorem consumer_channel_eq (bs : List (List DataRow)) :
    send_data_to_csv_consumer (channel_items bs) = bs.map some ++ [none] := by
  induction bs with
  | nil => rfl
  | cons b rest ih =>
    show some b :: send_data_to_csv_consumer (channel_items rest) = _
    rw [ih]
    rfl

/-- Helper: the generator writes every row of every forwarded batch, in
order, and stops at the finalizing None. -/
theorem write_loop_batches (bs : List (List DataRow)) :
    write_loop (bs.map some ++ [none]) = bs.flatten.map serialize_row := by
  induction bs with
  | nil => rfl
  | cons b rest ih =>
    show b.map serialize_row ++ write_loop (rest.map some ++ [none]) = _
    rw [ih]
    simp

/-- Helper: every record the extractor emits has an empty company field
(main.py line 127 sets `company=None` unconditionally). -/
theorem record_company_none (es : String → Option String) (p : Post) (r : DataRow)
    (h : extract_record es p = .ok (some r)) : r.company = none := by
  simp only [extract_record] at h
  repeat' split at h
  all_goals try simp_all
  all_goals subst h
  all_goals rfl

/-- Helper: every record in a successful `parse_html_soup` result has an
empty company field. -/
theorem soup_company_none (es : String → Option String) :
    ∀ (posts : List Post) (rows : List DataRow),
      parse_html_soup es posts = .ok rows → ∀ r ∈ rows, r.company = none := by
  intro posts
  induction posts with
  | nil =>
    intro rows h r hr
    simp only [parse_html_soup] at h
    cases h
    simp at hr
  | cons p rest ih =>
    intro rows h r hr
    simp only [parse_html_soup] at h
    rcases hp : extract_record es p with e | r0
    · rw [hp] at h; exact Except.noConfusion h
    · rw [hp] at h
      rcases r0 with _ | r0
      · exact ih rows h r hr
      · rcases hrest : parse_html_soup es rest with e | rs
        · rw [hrest] at h; exact Except.noConfusion h
        · rw [hrest] at h
          cases h
          rcases List.mem_cons.mp hr with hr0 | hrs
          · subst hr0; exact record_company_none es p r hp
          · exact ih rs hrest r hrs

/-- Helper: every record in a successful `parse_html_file` result has an
empty company field. -/
theorem file_company_none (es : String → Option String) (f : FileModel)
    (rows : List DataRow) (h : parse_html_file es f = .ok rows) :
    ∀ r ∈ rows, r.company = none := by
  simp only [parse_html_file] at h
  repeat' split at h
  all_goals first
    | exact Except.noConfusion h
    | exact soup_company_none es _ rows h

/-- Helper: every record in every gathered batch has an empty company
field. -/
theorem gather_company_none (es : String → Option String) :
    ∀ (files : List FileModel) (batches : List (List DataRow)),
      gather_results es files = .ok batches →
      ∀ b ∈ batches, ∀ r ∈ b, r.company = none := by
  intro files
  induction files with
  | nil =>
    intro batches h b hb
    simp only [gather_results] at h
    cases h
    simp at hb
  | cons f rest ih =>
    intro batches h b hb
    simp only [gather_results] at h
    rcases hf : parse_html_file es f with e | b0
    · rw [hf] at h; exact Except.noConfusion h
    · rw [hf] at h
      rcases hrest : gather_results es rest with e | bs
      · rw [hrest] at h; exact Except.noConfusion h
      · rw [hrest] at h
        cases h
        rcases List.mem_cons.mp hb with hb0 | hbs
        · subst hb0; exact file_company_none es f b hf
        · exact ih bs hrest b hbs

/-- Helper: a row with an empty company field never coincides with the
header row (whose third cell is the non-empty `"Company"`). -/
theorem serialize_ne_header (r : DataRow) (h : r.company = none) :
    serialize_row r ≠ header_row := by
  intro heq
  simp [serialize_row, header_row, h, serialize_cell] at heq

/-- Helper: gathering over one more file succeeds exactly when that file
parses and the rest gathers. -/
theorem gather_cons_isOk (es : String → Option String) (f : FileModel)
    (rest : List FileModel) :
    (gather_results es (f :: rest)).isOk = true ↔
      ((parse_html_file es f).isOk = true ∧ (gather_results es rest).isOk = true) := by
  simp only [gather_results]
  rcases hf : parse_html_file es f with e | b
  · simp [Except.isOk, Except.toBool]
  · rcases hrest : gather_results es rest with e2 | bs
    · simp [Except.isOk, Except.toBool]
    · simp [Except.isOk, Except.toBool]

/-- Helper: gathering succeeds exactly when the parse of every file succeeds. -/
theorem gather_isOk_iff (es : String → Option String) :
    ∀ files : List FileModel,
      (gather_results es files).isOk = true ↔
        ∀ f ∈ files, (parse_html_file es f).isOk = true := by
  intro files
  induction files with
  | nil =>
    constructor
    · intro _ f hf; simp at hf
    · intro _; rfl
  | cons f rest ih =>
    rw [gather_cons_isOk, ih]
    constructor
    · rintro ⟨h1, h2⟩ g hg
      rcases List.mem_cons.mp hg with hg1 | hg2
      · subst hg1; exact h1
      · exact h2 g hg2
    · intro h
      exact ⟨h f (List.mem_cons_self f rest),
        fun g hg => h g (List.mem_cons_of_mem f hg)⟩

/-- C1 counterexample: with a directory holding one valid document and one
unparsable document, the parse task of the valid document succeeds, yet the
sentinel is never pushed and `parse_folder` aborts with the parse error
instead of completing the run. -/
theorem C1_counterexample :
    (parse_html_file es_none file_good).isOk = true ∧
    sentinel_pushed es_none files_mixed = false ∧
    parse_folder es_none files_mixed [[row_good]] = .error .parseError :=
  ⟨rfl, rfl, rfl⟩

/-- C1 (amended): `asyncio.gather` is awaited without `return_exceptions`,
so one failing parse task makes `parse_folder` re-raise its exception: the
sentinel push on line 210 is never reached and the run does not complete.
Only when every document parses successfully does the run complete, push
the sentinel, and deliver every gathered batch (in task-completion order)
to the sink. -/
theorem C1_failure_aborts_run (es : String → Option String) (files : List FileModel) :
    ((gather_results es files).isOk = true ↔
      ∀ f ∈ files, (parse_html_file es f).isOk = true) ∧
    (¬ (∀ f ∈ files, (parse_html_file es f).isOk = true) →
      sentinel_pushed es files = false ∧
      ∀ arrival, (parse_folder es files arrival).isOk = false) ∧
    (∀ batches arrival, gather_results es files = .ok batches →
      List.Perm arrival batches →
      sentinel_pushed es files = true ∧
      parse_folder es files arrival =
        .ok (header_row :: arrival.flatten.map serialize_row) ∧
      ∀ b ∈ batches, b ∈ arrival) := by
  refine ⟨gather_isOk_iff es files, ?_, ?_⟩
  · intro hbad
    have hko : (gather_results es files).isOk = false := by
      rcases hg : gather_results es files with e | bs
      · rfl
      · exfalso
        apply hbad
        rw [← gather_isOk_iff es files]
        simp [hg, Except.isOk, Except.toBool]
    refine ⟨hko, ?_⟩
    intro arrival
    rcases hg : gather_results es files with e | bs
    · simp [parse_folder, hg, Except.isOk, Except.toBool]
    · rw [hg] at hko
      simp [Except.isOk, Except.toBool] at hko
  · intro batches arrival hg hperm
    refine ⟨?_, ?_, ?_⟩
    · show (gather_results es files).isOk = true
      simp [hg, Except.isOk, Except.toBool]
    · simp only [parse_folder, hg, sink_output]
      rw [consumer_channel_eq, write_loop_batches]
    · intro b hb
      exact (hperm.mem_iff).mpr hb

/-- C1 witness: a one-document directory whose parse succeeds; the run
pushes the sentinel and delivers the batch. -/
theorem C1_witness :
    sentinel_pushed es_none [file_good] = true ∧
    parse_folder es_none [file_good] [[row_good]] =
      .ok (header_row :: [[row_good]].flatten.map serialize_row) ∧
    ∀ b ∈ [[row_good]], b ∈ [[row_good]] :=
  (C1_failure_aborts_run es_none [file_good]).2.2 [[row_good]] [[row_good]] rfl
    (List.Perm.refl _)

/-- C3: in every completed pipeline run the channel carries the sentinel
exactly once, as its last item (every data batch is enqueued before it),
and the consumer forwards exactly the data batches to the sink, finalizing
and exiting on the sentinel without ever processing it as data. -/
theorem C3_sentinel_protocol (es : String → Option String) (files : List FileModel)
    (batches arrival : List (List DataRow))
    (_hgather : gather_results es files = .ok batches)
    (_hperm : List.Perm arrival batches) :
    (channel_items arrival).count QItem.sentinel = 1 ∧
    (channel_items arrival).getLast? = some QItem.sentinel ∧
    send_data_to_csv_consumer (channel_items arrival) = arrival.map some ++ [none] := by
  refine ⟨?_, ?_, consumer_channel_eq arrival⟩
  · simp only [channel_items]
    rw [List.count_append]
    have h0 : (arrival.map QItem.data).count QItem.sentinel = 0 := by
      rw [List.count_eq_zero]
      intro hmem
      rcases List.mem_map.mp hmem with ⟨b, _, hbad⟩
      exact QItem.noConfusion hbad
    rw [h0]
    rfl
  · simp only [channel_items]
    exact List.getLast?_concat _

/-- C3 witness: the protocol instantiated on a completed one-document run. -/
theorem C3_witness :
    (channel_items [[row_good]]).count QItem.sentinel = 1 ∧
    (channel_items [[row_good]]).getLast? = some QItem.sentinel ∧
    send_data_to_csv_consumer (channel_items [[row_good]]) =
      [[row_good]].map some ++ [none] :=
  C3_sentinel_protocol es_none [file_good] [[row_good]] [[row_good]] rfl
    (List.Perm.refl _)

/-- C4: in every completed pipeline run the sink writes the fixed header
row exactly once, before any data row — the header is the first written
row, and no written data row equals it (every extracted record has an
empty company cell where the header has `"Company"`). -/
theorem C4_header_exactly_once (es : String → Option String) (files : List FileModel)
    (batches arrival : List (List DataRow)) (out : List (List String))
    (hgather : gather_results es files = .ok batches)
    (hperm : List.Perm arrival batches)
    (hrun : parse_folder es files arrival = .ok out) :
    out.head? = some header_row ∧ header_row ∉ out.tail := by
  simp only [parse_folder, hgather, Except.ok.injEq] at hrun
  subst hrun
  simp only [sink_output]
  refine ⟨rfl, ?_⟩
  show header_row ∉ write_loop (send_data_to_csv_consumer (channel_items arrival))
  rw [consumer_channel_eq, write_loop_batches]
  intro hmem
  rcases List.mem_map.mp hmem with ⟨r, hrmem, hser⟩
  rcases List.mem_flatten.mp hrmem with ⟨b, hb, hrb⟩
  have hbb : b ∈ batches := (hperm.mem_iff).mp hb
  have hcomp : r.company = none := gather_company_none es files batches hgather b hbb r hrb
  exact serialize_ne_header r hcomp hser

/-- C4 witness: the completed one-document run writes the header first and
never again. -/
theorem C4_witness :
    (header_row :: [serialize_row row_good]).head? = some header_row ∧
    header_row ∉ (header_row :: [serialize_row row_good]).tail :=
  C4_header_exactly_once es_none [file_good] [[row_good]] [[row_good]]
    (header_row :: [serialize_row row_good]) rfl (List.Perm.refl _) rfl

/-- C9: for every filesystem state with some free name in the sequence, the
selected output name of the run is unused and every name of the sequence with a
smaller index is in use. -/
theorem C9_first_unused_name (fs : String → Bool)
    (h : ∃ n, fs (result_name n) = false) :
    fs (get_output_file fs h) = false ∧
    ∀ j < output_file_index fs h, fs (result_name j) = true := by
  constructor
  · exact Nat.find_spec h
  · intro j hj
    have hmin := Nat.find_min h hj
    cases hb : fs (result_name j) with
    | false => exact absurd hb hmin
    | true => rfl

/-- C9 witness: with `result_0.csv` and `result_1.csv` existing, the chosen
name is the free `result_2.csv`. -/
theorem C9_witness :
    fs_w (get_output_file fs_w fs_w_free) = false ∧
    get_output_file fs_w fs_w_free = "result_2.csv" := by
  refine ⟨(C9_first_unused_name fs_w fs_w_free).1, ?_⟩
  have hidx : output_file_index fs_w fs_w_free = 2 := by
    rw [output_file_index, Nat.find_eq_iff]
    constructor
    · decide
    · intro m hm
      interval_cases m <;> decide
  show result_name (output_file_index fs_w fs_w_free) = "result_2.csv"
  rw [hidx]
  rfl
